import Mathlib

/-!
Verification development for the read-oriented WhatsApp message-retrieval layer.

The repository contains two overlapping implementations of the retrieval
operations:
  * `src/whatsapp-bridge/whatsapp/whatsapp_db.go` — methods on the `WhatsApp`
    struct (`GetMessageContext`, `ListMessages`, `ListChats`, `SearchContacts`,
    `GetChat`, ...), embedded here with a `whatsapp` name part;
  * `src/unnamed/part_000` — methods on `DBHandler` (`getMessageContext`,
    `GetMessageContext`, `ListMessages`, `ListChats`, `SearchContacts`,
    `GetChat`, ...), embedded here with a `p0` name part.

The SQLite store is modelled as in-memory lists of rows.  Timestamps are
stored by the program as fixed-format text whose lexicographic order equals
chronological order; they are modelled as `Nat` with the usual order.
SQL constructs are given their SQLite semantics over the row lists:
`LIKE '%q%'` is ASCII-case-insensitive containment (SQLite folds ASCII case
in `LIKE` by default, and the `LOWER(...) LIKE LOWER(...)` variant used in
some queries coincides with it), `ORDER BY` is modelled by an insertion
sort on the relevant key, `LIMIT l OFFSET o` by `(·.drop o).take l`, and a
`JOIN chats ON messages.chat_jid = chats.jid` restricts to messages whose
chat row exists (chat identifiers are primary keys).  A query that the
underlying store fails to execute is modelled by an explicit Boolean
failure flag passed to the operation, one flag per sub-query, mirroring
where the Go code receives a non-nil `err` from `db.Query`/`QueryRow`.
-/

/-- Decidable equality for `Except`, needed to evaluate concrete results. -/
instance {ε α : Type} [DecidableEq ε] [DecidableEq α] : DecidableEq (Except ε α) := fun
  | .ok a, .ok b =>
    if h : a = b then .isTrue (by rw [h]) else .isFalse (by intro hc; cases hc; exact h rfl)
  | .error e, .error f =>
    if h : e = f then .isTrue (by rw [h]) else .isFalse (by intro hc; cases hc; exact h rfl)
  | .ok _, .error _ => .isFalse (by intro hc; cases hc)
  | .error _, .ok _ => .isFalse (by intro hc; cases hc)

/-- Whether the character list `l` starts with the pattern `pat`. -/
def startsWithChars : List Char → List Char → Bool
  | [], _ => true
  | _ :: _, [] => false
  | a :: pa, b :: l => a == b && startsWithChars pa l

/-- Whether the pattern `pat` occurs as a contiguous run inside `l`. -/
def containsChars (pat : List Char) : List Char → Bool
  | [] => startsWithChars pat []
  | b :: l => startsWithChars pat (b :: l) || containsChars pat l

/-- SQLite `column LIKE '%q%'` semantics: ASCII-case-insensitive containment
of `q` in `s`.  `Char.toLower` folds exactly the ASCII range, matching
SQLite's default `LIKE` folding. -/
def likeContains (s q : String) : Bool :=
  containsChars (q.toList.map Char.toLower) (s.toList.map Char.toLower)

/-- SQLite `column LIKE '%pat'` semantics (case-insensitive suffix test). -/
def likeEndsWith (s pat : String) : Bool :=
  startsWithChars (pat.toList.map Char.toLower).reverse (s.toList.map Char.toLower).reverse

/-- Model of Go's `strings.TrimSpace`: drop whitespace from both ends. -/
def trimSpace (s : String) : String :=
  String.mk (((s.toList.dropWhile Char.isWhitespace).reverse.dropWhile Char.isWhitespace).reverse)

/-- Model of Go's case-sensitive `strings.Contains`. -/
def strContainsSub (s pat : String) : Bool :=
  containsChars pat.toList s.toList

/-- Insert an element into a list that is sorted for the Boolean order `le`. -/
def insertOrd (le : α → α → Bool) (a : α) : List α → List α
  | [] => [a]
  | b :: l => if le a b then a :: b :: l else b :: insertOrd le a l

/-- Insertion sort for the Boolean order `le`; models SQL `ORDER BY`. -/
def sortOrd (le : α → α → Bool) : List α → List α
  | [] => []
  | a :: l => insertOrd le a (sortOrd le l)

/-- Run a fallible builder over each element, stopping at the first error;
models the Go row loops that return on the first failing row. -/
def mapME (f : α → Except ε β) : List α → Except ε (List β)
  | [] => .ok []
  | a :: l =>
    match f a with
    | .error e => .error e
    | .ok b =>
      match mapME f l with
      | .error e => .error e
      | .ok bs => .ok (b :: bs)

/-- A row of the `messages` table (timestamps as naturals, see header). -/
structure MessageRow where
  id : String
  chat_jid : String
  sender : String
  content : String
  timestamp : Nat
  is_from_me : Bool
  media_type : String
  filename : String
deriving DecidableEq

/-- A row of the `chats` table. -/
structure ChatRow where
  jid : String
  name : String
  last_message_time : Nat
deriving DecidableEq

/-- The read-only store consumed by the retrieval layer. -/
structure DB where
  messages : List MessageRow
  chats : List ChatRow
deriving DecidableEq

/-- Error taxonomy, one constructor per `fmt.Errorf` site reached by the
embedded operations. -/
inductive DBErr where
  /-- part_000 `SearchContacts`: "query cannot be empty". -/
  | emptyQuery
  /-- whatsapp_db.go `GetMessageContext`: "message with ID %s not found". -/
  | notFound (messageID : String)
  /-- part_000 `GetMessageContext`: "failed to get target message". -/
  | targetFetchFailed
  /-- part_000 `getMessageContext`: "failed to get target message timestamp". -/
  | anchorTimestampFailed
  /-- part_000 `getMessageContext`: "failed to get messages before target". -/
  | beforeFetchFailed
  /-- part_000 `getMessageContext`: "failed to get messages after target". -/
  | afterFetchFailed
  /-- part_000 `getMessageContext`: "failed to scan message row". -/
  | scanFailed
  /-- part_000 wrapper sites: "failed to get message context: %v". -/
  | contextWrap (e : DBErr)
  /-- part_000 `GetChat`: "failed to get chat". -/
  | getChatFailed
  /-- part_000 `ListMessages`: "failed to list messages". -/
  | listQueryFailed
  /-- whatsapp_db.go `ListChats`: "database error" from an invalid query. -/
  | queryFailed
deriving DecidableEq

/-- The `whatsapp.Message` struct of whatsapp_db.go. -/
structure WMessage where
  Timestamp : Nat
  Sender : String
  Content : String
  IsFromMe : Bool
  ChatJID : String
  ID : String
  ChatName : String
  MediaType : String
deriving DecidableEq

/-- The `whatsapp.MessageContext` struct of whatsapp_db.go. -/
structure WMessageContext where
  Message : WMessage
  Before : List WMessage
  After : List WMessage
deriving DecidableEq

/-- The `whatsapp.Chat` struct of whatsapp_db.go. -/
structure WChat where
  JID : String
  Name : String
  LastMessageTime : Nat
  LastMessage : String
  LastSender : String
  LastIsFromMe : Bool
deriving DecidableEq

/-- The `whatsapp.Contact` struct of whatsapp_db.go. -/
structure Contact where
  PhoneNumber : String
  Name : String
  JID : String
deriving DecidableEq

/-- The bridge `Message` struct as used by part_000 (fields taken from its
scan sites: sender, content, timestamp, is_from_me, media_type, filename). -/
structure P0Message where
  Sender : String
  Content : String
  Time : Nat
  IsFromMe : Bool
  MediaType : String
  Filename : String
deriving DecidableEq

/-- part_000 `MessageResult`. -/
structure MessageResult where
  ID : String
  ChatJID : String
  Sender : String
  SenderName : String
  Content : String
  Timestamp : Nat
  IsFromMe : Bool
  MediaType : String
  MediaPath : String
  ContextItems : List P0Message
deriving DecidableEq

/-- part_000 `ChatResult`. -/
structure ChatResult where
  JID : String
  Name : String
  LastMessageAt : Nat
  LastMessage : Option P0Message
deriving DecidableEq

/-- part_000 `SearchContactsResult`. -/
structure SearchContactsResult where
  JID : String
  Name : String
  PhoneNumber : String
deriving DecidableEq

/-- part_000 `SearchContactsParams`. -/
structure SearchContactsParams where
  Query : String
deriving DecidableEq

/-- part_000 `ListMessagesParams` (time bounds already parsed, as naturals). -/
structure ListMessagesParams where
  After : Option Nat
  Before : Option Nat
  SenderPhoneNumber : String
  ChatJID : String
  Query : String
  Limit : Nat
  Page : Nat
  IncludeContext : Bool
  ContextBefore : Nat
  ContextAfter : Nat
deriving DecidableEq

/-- part_000 `ListChatsParams`. -/
structure ListChatsParams where
  Query : String
  Limit : Nat
  Page : Nat
  IncludeLastMessage : Bool
  SortBy : String
deriving DecidableEq

/-- part_000 `MessageContextParams`. -/
structure MessageContextParams where
  MessageID : String
  Before : Nat
  After : Nat
deriving DecidableEq

/-- Whether a `chats` row with this jid exists; models the inner
`JOIN chats ON messages.chat_jid = chats.jid` (jid is the primary key). -/
def chatExists (db : DB) (jid : String) : Bool :=
  db.chats.any (fun c => c.jid == jid)

/-- The chat name selected by the join for a message's chat. -/
def chatNameOf (db : DB) (jid : String) : String :=
  ((db.chats.find? (fun c => c.jid == jid)).map (fun c => c.name)).getD ""

/-- Row of the joined messages-with-chat-name selection, as whatsapp_db.go
scans it into its `Message` struct. -/
def toWMessage (db : DB) (m : MessageRow) : WMessage :=
  { Timestamp := m.timestamp, Sender := m.sender, Content := m.content,
    IsFromMe := m.is_from_me, ChatJID := m.chat_jid, ID := m.id,
    ChatName := chatNameOf db m.chat_jid, MediaType := m.media_type }

/-- Row scanned into the bridge `Message` struct by part_000's loops. -/
def toP0Message (m : MessageRow) : P0Message :=
  { Sender := m.sender, Content := m.content, Time := m.timestamp,
    IsFromMe := m.is_from_me, MediaType := m.media_type, Filename := m.filename }

/-- Boolean order for `ORDER BY timestamp DESC`. -/
def tsDescLe (a b : MessageRow) : Bool := decide (b.timestamp ≤ a.timestamp)

/-- Boolean order for `ORDER BY timestamp ASC`. -/
def tsAscLe (a b : MessageRow) : Bool := decide (a.timestamp ≤ b.timestamp)

/-- Messages sorted by timestamp descending. -/
def sortTsDesc (l : List MessageRow) : List MessageRow := sortOrd tsDescLe l

/-- Messages sorted by timestamp ascending. -/
def sortTsAsc (l : List MessageRow) : List MessageRow := sortOrd tsAscLe l

/-- Media path convention shared by part_000's result builders:
`store/<chat_jid with ':' replaced by '_'>/<filename>`. -/
def mediaPath (chatJID filename : String) : String :=
  "store/" ++ String.mk (chatJID.toList.map (fun c => if c == ':' then '_' else c)) ++
    "/" ++ filename

/-- Identifier formation used at part_000's sender-filter and direct-chat
sites: concatenation with the direct-chat domain marker. -/
def PhoneToIdentifier (phone : String) : String := phone ++ "@s.whatsapp.net"

/-- Phone extraction used at part_000's contact-result site: the part before
the first at-sign when the direct-chat domain marker occurs in the
identifier, empty otherwise. -/
def IdentifierToPhone (jid : String) : String :=
  if strContainsSub jid "@s.whatsapp.net" then
    String.mk (jid.toList.takeWhile (fun c => c != '@'))
  else ""

/-- Rows matched by part_000 `getMessageContext`'s before-query:
same chat, timestamp strictly below the anchor's (no join in this query). -/
def p0Preds (db : DB) (chatJID : String) (ts : Nat) : List MessageRow :=
  db.messages.filter (fun m => m.chat_jid == chatJID && decide (m.timestamp < ts))

/-- Rows matched by part_000 `getMessageContext`'s after-query. -/
def p0Succs (db : DB) (chatJID : String) (ts : Nat) : List MessageRow :=
  db.messages.filter (fun m => m.chat_jid == chatJID && decide (ts < m.timestamp))

/-- part_000's before-window: nearest predecessors fetched descending with
`LIMIT before`, then reversed into chronological order. -/
def p0BeforeWindow (db : DB) (chatJID : String) (ts b : Nat) : List MessageRow :=
  ((sortTsDesc (p0Preds db chatJID ts)).take b).reverse

/-- part_000's after-query row list: successors ascending with `LIMIT after`. -/
def p0AfterRows (db : DB) (chatJID : String) (ts a : Nat) : List MessageRow :=
  (sortTsAsc (p0Succs db chatJID ts)).take a

/-- part_000 `getMessageContext` (lower-case, the shared worker).
Faithful to the source including its cursor slip: inside the loop over the
after-query rows the code calls `beforeRows.Scan`, but the before-cursor is
already exhausted, so the first after-row makes the scan fail and the whole
call returns the scan error; only an empty after-result reaches success. -/
def p0GetMessageContextInner (db : DB) (messageID chatJID : String) (before after : Nat)
    (beforeQueryFails afterQueryFails : Bool) : Except DBErr (List P0Message) :=
  match db.messages.find? (fun m => m.id == messageID && m.chat_jid == chatJID) with
  | none => .error .anchorTimestampFailed
  | some anchor =>
    if beforeQueryFails then .error .beforeFetchFailed
    else
      let beforeMessages := (p0BeforeWindow db chatJID anchor.timestamp before).map toP0Message
      if afterQueryFails then .error .afterFetchFailed
      else
        if (p0AfterRows db chatJID anchor.timestamp after).isEmpty then .ok beforeMessages
        else .error .scanFailed

/-- part_000 `GetMessageContext` (capital): resolves the anchor through the
chats join, then delegates to the worker; any worker error is wrapped and
returned, no partial window.  The Go code scans the chat jid into a local
variable only, so the result's ChatJID field keeps its zero value. -/
def p0GetMessageContext (db : DB) (params : MessageContextParams)
    (beforeQueryFails afterQueryFails : Bool) : Except DBErr MessageResult :=
  match db.messages.find? (fun m => m.id == params.MessageID && chatExists db m.chat_jid) with
  | none => .error .targetFetchFailed
  | some m =>
    match p0GetMessageContextInner db m.id m.chat_jid params.Before params.After
        beforeQueryFails afterQueryFails with
    | .error e => .error (.contextWrap e)
    | .ok items =>
      .ok { ID := m.id, ChatJID := "", Sender := m.sender,
            SenderName := chatNameOf db m.chat_jid, Content := m.content,
            Timestamp := m.timestamp, IsFromMe := m.is_from_me,
            MediaType := m.media_type,
            MediaPath := if m.filename == "" then "" else mediaPath m.chat_jid m.filename,
            ContextItems := items }

/-- Rows matched by whatsapp_db.go `GetMessageContext`'s before-query, which
joins the chats table. -/
def wPreds (db : DB) (chatJID : String) (ts : Nat) : List MessageRow :=
  db.messages.filter (fun m =>
    chatExists db m.chat_jid && (m.chat_jid == chatJID && decide (m.timestamp < ts)))

/-- Rows matched by whatsapp_db.go `GetMessageContext`'s after-query. -/
def wSuccs (db : DB) (chatJID : String) (ts : Nat) : List MessageRow :=
  db.messages.filter (fun m =>
    chatExists db m.chat_jid && (m.chat_jid == chatJID && decide (ts < m.timestamp)))

/-- whatsapp_db.go's before list: fetched descending with `LIMIT before` and
kept in that order (this version has no reversal step). -/
def wBeforeList (db : DB) (chatJID : String) (ts b : Nat) : List WMessage :=
  ((sortTsDesc (wPreds db chatJID ts)).take b).map (toWMessage db)

/-- whatsapp_db.go's after list: fetched ascending with `LIMIT after`. -/
def wAfterList (db : DB) (chatJID : String) (ts a : Nat) : List WMessage :=
  ((sortTsAsc (wSuccs db chatJID ts)).take a).map (toWMessage db)

/-- whatsapp_db.go `GetMessageContext`.  A failing anchor query (store
failure or no row) is the single error path; a failing before- or
after-query is silently skipped (`if err == nil { ... }` in the source),
leaving the corresponding list empty. -/
def whatsappGetMessageContext (db : DB) (messageID : String) (before after : Nat)
    (anchorQueryFails beforeQueryFails afterQueryFails : Bool) :
    Except DBErr WMessageContext :=
  match (if anchorQueryFails then none
         else db.messages.find? (fun m => m.id == messageID && chatExists db m.chat_jid)) with
  | none => .error (.notFound messageID)
  | some m =>
    .ok { Message := toWMessage db m,
          Before := if beforeQueryFails then [] else wBeforeList db m.chat_jid m.timestamp before,
          After := if afterQueryFails then [] else wAfterList db m.chat_jid m.timestamp after }

/-- The conjunction of part_000 `ListMessages`' optional WHERE clauses; a
parameter left at its zero value contributes no clause. -/
def msgMatches (p : ListMessagesParams) (m : MessageRow) : Bool :=
  (match p.After with | some t => decide (t < m.timestamp) | none => true) &&
  (match p.Before with | some t => decide (m.timestamp < t) | none => true) &&
  (if p.SenderPhoneNumber == "" then true else m.sender == PhoneToIdentifier p.SenderPhoneNumber) &&
  (if p.ChatJID == "" then true else m.chat_jid == p.ChatJID) &&
  (if p.Query == "" then true else likeContains m.content p.Query)

/-- part_000 `ListMessages`' full result order before pagination: matched
rows that survive the chats join, by timestamp descending. -/
def p0SortedMessages (db : DB) (p : ListMessagesParams) : List MessageRow :=
  sortTsDesc (db.messages.filter (fun m => chatExists db m.chat_jid && msgMatches p m))

/-- The page of rows produced by `LIMIT ? OFFSET ?` with offset page*limit. -/
def p0PageMessages (db : DB) (p : ListMessagesParams) : List MessageRow :=
  ((p0SortedMessages db p).drop (p.Page * p.Limit)).take p.Limit

/-- The scalar part of a part_000 `ListMessages` result row, scanned from
the joined selection. -/
def p0BaseResult (db : DB) (m : MessageRow) : MessageResult :=
  { ID := m.id, ChatJID := m.chat_jid, Sender := m.sender,
    SenderName := chatNameOf db m.chat_jid, Content := m.content,
    Timestamp := m.timestamp, IsFromMe := m.is_from_me, MediaType := m.media_type,
    MediaPath := if m.filename == "" then "" else mediaPath m.chat_jid m.filename,
    ContextItems := [] }

/-- One iteration of part_000 `ListMessages`' row loop: build the result row
and, when context is requested, fetch it through the worker; a worker error
aborts the whole listing. -/
def p0BuildMessageResult (db : DB) (p : ListMessagesParams)
    (beforeQueryFails afterQueryFails : Bool) (m : MessageRow) : Except DBErr MessageResult :=
  if p.IncludeContext then
    match p0GetMessageContextInner db m.id m.chat_jid p.ContextBefore p.ContextAfter
        beforeQueryFails afterQueryFails with
    | .error e => .error (.contextWrap e)
    | .ok items => .ok { p0BaseResult db m with ContextItems := items }
  else .ok (p0BaseResult db m)

/-- part_000 `ListMessages`. -/
def p0ListMessages (db : DB) (p : ListMessagesParams)
    (beforeQueryFails afterQueryFails : Bool) : Except DBErr (List MessageResult) :=
  mapME (p0BuildMessageResult db p beforeQueryFails afterQueryFails) (p0PageMessages db p)

/-- Chat ordering of both listings: last-message time descending by default,
name ascending under the explicit "name" option (SQL text order on names is
modelled by the lexicographic order on their character lists). -/
def chatLe (sortBy : String) (a b : ChatRow) : Bool :=
  if sortBy == "name" then decide (a.name.toList ≤ b.name.toList)
  else decide (b.last_message_time ≤ a.last_message_time)

/-- The optional chat query clause: identifier or name contains the query. -/
def chatMatchesQuery (q : String) (c : ChatRow) : Bool :=
  if q == "" then true else likeContains c.jid q || likeContains c.name q

/-- Chat rows matched and ordered by part_000 `ListChats` before pagination. -/
def p0SortedChats (db : DB) (q sortBy : String) : List ChatRow :=
  sortOrd (chatLe sortBy) (db.chats.filter (chatMatchesQuery q))

/-- part_000 `getLastMessage`: latest message of the chat, none when the
chat has no messages (`sql.ErrNoRows` maps to a nil result, not an error). -/
def p0getLastMessage (db : DB) (chatJID : String) : Option P0Message :=
  ((sortTsDesc (db.messages.filter (fun m => m.chat_jid == chatJID))).head?).map toP0Message

/-- part_000 `ListChats`.  `lastMessageQueryFails` injects a per-chat store
failure of the secondary last-message lookup; the source logs a warning and
keeps the row with the field unset, so no error surfaces from enrichment. -/
def p0ListChats (db : DB) (p : ListChatsParams) (lastMessageQueryFails : String → Bool) :
    List ChatResult :=
  (((p0SortedChats db p.Query p.SortBy).drop (p.Page * p.Limit)).take p.Limit).map (fun c =>
    { JID := c.jid, Name := c.name, LastMessageAt := c.last_message_time,
      LastMessage :=
        if p.IncludeLastMessage then
          (if lastMessageQueryFails c.jid then none else p0getLastMessage db c.jid)
        else none })

/-- part_000 `GetChat`: base lookup errors when the chat row is missing;
the optional last-message enrichment degrades to an unset field on failure. -/
def p0GetChat (db : DB) (chatJID : String) (includeLastMessage : Bool)
    (lastMessageQueryFails : Bool) : Except DBErr ChatResult :=
  match db.chats.find? (fun c => c.jid == chatJID) with
  | none => .error .getChatFailed
  | some c =>
    .ok { JID := c.jid, Name := c.name, LastMessageAt := c.last_message_time,
          LastMessage :=
            if includeLastMessage then
              (if lastMessageQueryFails then none else p0getLastMessage db c.jid)
            else none }

/-- Order for part_000 `SearchContacts`' `ORDER BY name` over the selected
(jid, name) pairs. -/
def pairNameLe (a b : String × String) : Bool := decide (a.2.toList ≤ b.2.toList)

/-- Order for whatsapp_db.go `SearchContacts`' `ORDER BY name, jid`. -/
def pairNameJidLe (a b : String × String) : Bool :=
  if a.2 == b.2 then decide (a.1.toList ≤ b.1.toList) else decide (a.2.toList ≤ b.2.toList)

/-- part_000 `SearchContacts`: validates the trimmed query, then selects
distinct (jid, name) chat pairs whose jid or name contains it; group
identifiers are not excluded by this version. -/
def p0SearchContacts (db : DB) (params : SearchContactsParams) :
    Except DBErr (List SearchContactsResult) :=
  let query := trimSpace params.Query
  if query == "" then .error .emptyQuery
  else
    .ok ((sortOrd pairNameLe
      ((db.chats.filter (fun c => likeContains c.jid query || likeContains c.name query)).map
        (fun c => (c.jid, c.name))).dedup).map (fun pr =>
      { JID := pr.1, Name := pr.2, PhoneNumber := IdentifierToPhone pr.1 }))

/-- whatsapp_db.go `SearchContacts`: no emptiness validation; selects
distinct non-group (jid, name) pairs matching the query, at most 50, and
takes the part of the jid before the first at-sign as the phone number. -/
def whatsappSearchContacts (db : DB) (query : String) : Except DBErr (List Contact) :=
  .ok (((sortOrd pairNameJidLe
    ((db.chats.filter (fun c =>
        (likeContains c.name query || likeContains c.jid query) &&
          !likeEndsWith c.jid "@g.us")).map
      (fun c => (c.jid, c.name))).dedup).take 50).map (fun pr =>
    { PhoneNumber := String.mk (pr.1.toList.takeWhile (fun c => c != '@')),
      Name := pr.2, JID := pr.1 }))

/-- The rows the `LEFT JOIN messages ON chats.jid = messages.chat_jid AND
chats.last_message_time = messages.timestamp` contributes for one chat:
one row per matching message, or a single all-NULL row when none matches. -/
def leftJoinLast (db : DB) (c : ChatRow) : List (Option MessageRow) :=
  match db.messages.filter (fun m => m.chat_jid == c.jid && m.timestamp == c.last_message_time) with
  | [] => [none]
  | ms => ms.map some

/-- One scanned row of whatsapp_db.go `ListChats`; NULL message columns
leave the Go struct's zero values in place. -/
def wChatOfJoin (c : ChatRow) : Option MessageRow → WChat
  | some m =>
    { JID := c.jid, Name := c.name, LastMessageTime := c.last_message_time,
      LastMessage := m.content, LastSender := m.sender, LastIsFromMe := m.is_from_me }
  | none =>
    { JID := c.jid, Name := c.name, LastMessageTime := c.last_message_time,
      LastMessage := "", LastSender := "", LastIsFromMe := false }

/-- whatsapp_db.go `ListChats`.  Without `includeLastMessage` the built
query still selects the messages columns but omits the join, so the store
rejects it and the call returns a database error; with it, the left-joined
rows are ordered, paginated and scanned. -/
def whatsappListChats (db : DB) (query : String) (limit page : Nat)
    (includeLastMessage : Bool) (sortBy : String) : Except DBErr (List WChat) :=
  if includeLastMessage then
    .ok (((sortOrd (fun a b => chatLe sortBy a.1 b.1)
        ((db.chats.filter (chatMatchesQuery query)).flatMap (fun c =>
          (leftJoinLast db c).map (fun om => (c, om))))).drop (page * limit)).take limit
      |>.map (fun pr => wChatOfJoin pr.1 pr.2))
  else .error .queryFailed

/-- The conjunction of whatsapp_db.go `ListMessages`' optional WHERE
clauses; this version compares the sender against the raw phone parameter. -/
def wMsgMatches (after before : Option Nat) (senderPhoneNumber chatJID query : String)
    (m : MessageRow) : Bool :=
  (match after with | some t => decide (t < m.timestamp) | none => true) &&
  (match before with | some t => decide (m.timestamp < t) | none => true) &&
  (if senderPhoneNumber == "" then true else m.sender == senderPhoneNumber) &&
  (if chatJID == "" then true else m.chat_jid == chatJID) &&
  (if query == "" then true else likeContains m.content query)

/-- The context-inclusion loop of whatsapp_db.go `ListMessages` (lines
262..277): per matched message, fetch its context; on error the row is
skipped entirely (`continue`), otherwise before, anchor and after are
appended to the outgoing listing. -/
def expandWithContext (db : DB) (contextBefore contextAfter : Nat)
    (contextQueryFails : String → Bool) (beforeQueryFails afterQueryFails : Bool) :
    List WMessage → List WMessage
  | [] => []
  | m :: ms =>
    (match whatsappGetMessageContext db m.ID contextBefore contextAfter
        (contextQueryFails m.ID) beforeQueryFails afterQueryFails with
     | .error _ => []
     | .ok c => c.Before ++ c.Message :: c.After) ++
      expandWithContext db contextBefore contextAfter contextQueryFails
        beforeQueryFails afterQueryFails ms

/-- whatsapp_db.go `ListMessages`, up to the final text formatting: the
matched, sorted, paginated rows, expanded through the context loop when
requested.  `contextQueryFails` injects a store failure of the per-message
context anchor query. -/
def whatsappListMessagesRows (db : DB) (after before : Option Nat)
    (senderPhoneNumber chatJID query : String) (limit page : Nat)
    (includeContext : Bool) (contextBefore contextAfter : Nat)
    (contextQueryFails : String → Bool) (beforeQueryFails afterQueryFails : Bool) :
    List WMessage :=
  let messages := (((sortTsDesc (db.messages.filter (fun m =>
      chatExists db m.chat_jid &&
        wMsgMatches after before senderPhoneNumber chatJID query m))).drop
          (page * limit)).take limit).map (toWMessage db)
  if includeContext && !messages.isEmpty then
    expandWithContext db contextBefore contextAfter contextQueryFails
      beforeQueryFails afterQueryFails messages
  else messages

/-- Concrete store used by counterexamples and witnesses: one chat "c" with
five messages at timestamps 1..5, one group chat, one direct chat. -/
def exdb : DB :=
  { messages :=
      [ ⟨"m1", "c", "555@s.whatsapp.net", "hello one", 1, false, "", ""⟩,
        ⟨"m2", "c", "555@s.whatsapp.net", "two", 2, false, "", ""⟩,
        ⟨"m3", "c", "me@s.whatsapp.net", "three", 3, true, "", ""⟩,
        ⟨"m4", "c", "555@s.whatsapp.net", "four", 4, false, "", ""⟩,
        ⟨"m5", "c", "me@s.whatsapp.net", "five", 5, true, "", ""⟩ ],
    chats :=
      [ ⟨"c", "ChatC", 5⟩, ⟨"123@g.us", "Group", 0⟩, ⟨"555@s.whatsapp.net", "Alice", 0⟩ ] }

/-- Membership in an ordered insert. -/
theorem mem_insertOrd {le : α → α → Bool} {a b : α} {l : List α} :
    b ∈ insertOrd le a l ↔ b = a ∨ b ∈ l := by
  induction l with
  | nil => simp [insertOrd]
  | cons c l ih =>
    by_cases h : le a c = true
    · simp [insertOrd, h]
    · simp only [insertOrd, if_neg h, List.mem_cons, ih]
      tauto

/-- The sort is a membership-preserving reordering. -/
theorem mem_sortOrd {le : α → α → Bool} {a : α} {l : List α} :
    a ∈ sortOrd le l ↔ a ∈ l := by
  induction l with
  | nil => simp [sortOrd]
  | cons b l ih => simp [sortOrd, mem_insertOrd, ih]

/-- Ordered insert grows the length by one. -/
theorem length_insertOrd {le : α → α → Bool} {a : α} {l : List α} :
    (insertOrd le a l).length = l.length + 1 := by
  induction l with
  | nil => rfl
  | cons c l ih => by_cases h : le a c = true <;> simp [insertOrd, h, ih]

/-- The sort preserves the length. -/
theorem length_sortOrd {le : α → α → Bool} {l : List α} :
    (sortOrd le l).length = l.length := by
  induction l with
  | nil => rfl
  | cons b l ih => simp [sortOrd, length_insertOrd, ih]

/-- Ordered insert preserves sortedness for a total transitive order. -/
theorem pairwise_insertOrd {le : α → α → Bool}
    (htot : ∀ x y, le x y = true ∨ le y x = true)
    (htrans : ∀ x y z, le x y = true → le y z = true → le x z = true)
    {a : α} {l : List α} (h : l.Pairwise (fun x y => le x y = true)) :
    (insertOrd le a l).Pairwise (fun x y => le x y = true) := by
  induction l with
  | nil => simp [insertOrd]
  | cons b l ih =>
    rcases List.pairwise_cons.mp h with ⟨hb, hl⟩
    by_cases hab : le a b = true
    · simp only [insertOrd, if_pos hab]
      refine List.pairwise_cons.mpr ⟨?_, h⟩
      intro x hx
      rcases List.mem_cons.mp hx with rfl | hx
      · exact hab
      · exact htrans a b x hab (hb x hx)
    · simp only [insertOrd, if_neg hab]
      refine List.pairwise_cons.mpr ⟨?_, ih hl⟩
      intro x hx
      rcases mem_insertOrd.mp hx with heq | hx
      · rw [heq]
        rcases htot a b with h' | h'
        · exact absurd h' hab
        · exact h'
      · exact hb x hx

/-- The sort output is sorted for any total transitive Boolean order. -/
theorem pairwise_sortOrd {le : α → α → Bool}
    (htot : ∀ x y, le x y = true ∨ le y x = true)
    (htrans : ∀ x y z, le x y = true → le y z = true → le x z = true)
    (l : List α) : (sortOrd le l).Pairwise (fun x y => le x y = true) := by
  induction l with
  | nil => simp [sortOrd]
  | cons b l ih => exact pairwise_insertOrd htot htrans ih

/-- The timestamp-descending order is total. -/
theorem tsDescLe_total : ∀ x y, tsDescLe x y = true ∨ tsDescLe y x = true := by
  intro x y
  simp only [tsDescLe, decide_eq_true_eq]
  exact Nat.le_total y.timestamp x.timestamp

/-- The timestamp-descending order is transitive. -/
theorem tsDescLe_trans : ∀ x y z, tsDescLe x y = true → tsDescLe y z = true →
    tsDescLe x z = true := by
  intro x y z hxy hyz
  simp only [tsDescLe, decide_eq_true_eq] at *
  exact le_trans hyz hxy

/-- The timestamp-ascending order is total. -/
theorem tsAscLe_total : ∀ x y, tsAscLe x y = true ∨ tsAscLe y x = true := by
  intro x y
  simp only [tsAscLe, decide_eq_true_eq]
  exact Nat.le_total x.timestamp y.timestamp

/-- The timestamp-ascending order is transitive. -/
theorem tsAscLe_trans : ∀ x y z, tsAscLe x y = true → tsAscLe y z = true →
    tsAscLe x z = true := by
  intro x y z hxy hyz
  simp only [tsAscLe, decide_eq_true_eq] at *
  exact le_trans hxy hyz

/-- Rows of a descending sort are pairwise timestamp-descending. -/
theorem sortTsDesc_pairwise (l : List MessageRow) :
    (sortTsDesc l).Pairwise (fun x y => y.timestamp ≤ x.timestamp) :=
  (pairwise_sortOrd tsDescLe_total tsDescLe_trans l).imp (fun h => of_decide_eq_true h)

/-- Rows of an ascending sort are pairwise timestamp-ascending. -/
theorem sortTsAsc_pairwise (l : List MessageRow) :
    (sortTsAsc l).Pairwise (fun x y => x.timestamp ≤ y.timestamp) :=
  (pairwise_sortOrd tsAscLe_total tsAscLe_trans l).imp (fun h => of_decide_eq_true h)

/-- Every row built by a successful traversal comes from a source row. -/
theorem mapME_ok_mem {f : α → Except ε β} :
    ∀ {l : List α} {rs : List β}, mapME f l = .ok rs → ∀ b ∈ rs, ∃ a ∈ l, f a = .ok b := by
  intro l
  induction l with
  | nil => intro rs h b hb; cases h; simp at hb
  | cons a l ih =>
    intro rs h b hb
    simp only [mapME] at h
    cases hfa : f a with
    | error e => rw [hfa] at h; cases h
    | ok b' =>
      rw [hfa] at h
      cases hml : mapME f l with
      | error e => rw [hml] at h; cases h
      | ok bs =>
        rw [hml] at h
        cases h
        rcases List.mem_cons.mp hb with rfl | hb
        · exact ⟨a, List.mem_cons_self a l, hfa⟩
        · rcases ih hml b hb with ⟨a', ha', hfa'⟩
          exact ⟨a', List.mem_cons_of_mem a ha', hfa'⟩

/-- A successful traversal maps source projections to result projections. -/
theorem mapME_ok_map {f : α → Except ε β} (g : β → γ) (h : α → γ)
    (hfg : ∀ a b, f a = .ok b → g b = h a) :
    ∀ {l : List α} {rs : List β}, mapME f l = .ok rs → rs.map g = l.map h := by
  intro l
  induction l with
  | nil => intro rs hok; cases hok; rfl
  | cons a l ih =>
    intro rs hok
    simp only [mapME] at hok
    cases hfa : f a with
    | error e => rw [hfa] at hok; cases hok
    | ok b =>
      rw [hfa] at hok
      cases hml : mapME f l with
      | error e => rw [hml] at hok; cases hok
      | ok bs =>
        rw [hml] at hok
        cases hok
        simp [List.map_cons, hfg a b hfa, ih hml]

/-- A successful traversal preserves the length. -/
theorem mapME_ok_length {f : α → Except ε β} {l : List α} {rs : List β}
    (hok : mapME f l = .ok rs) : rs.length = l.length := by
  have := mapME_ok_map (fun _ => ()) (fun _ => ()) (fun _ _ _ => rfl) hok
  have h1 := congrArg List.length this
  simpa using h1

/-- Any character list starts with itself. -/
theorem startsWithChars_self : ∀ l : List Char, startsWithChars l l = true := by
  intro l
  induction l with
  | nil => rfl
  | cons a l ih => simp [startsWithChars, ih]

/-- Any character list contains itself. -/
theorem containsChars_self : ∀ pat : List Char, containsChars pat pat = true := by
  intro pat
  cases pat with
  | nil => rfl
  | cons b l => simp [containsChars, startsWithChars_self]

/-- A pattern occurs in any extension of itself to the left. -/
theorem containsChars_append_self (l pat : List Char) :
    containsChars pat (l ++ pat) = true := by
  induction l with
  | nil => simpa using containsChars_self pat
  | cons c l ih => simp [containsChars, ih]

/-- Taking while a predicate holds skips over a fully satisfying block. -/
theorem takeWhile_append_of_all {p : α → Bool} {l₁ l₂ : List α}
    (h : ∀ a ∈ l₁, p a = true) :
    (l₁ ++ l₂).takeWhile p = l₁ ++ l₂.takeWhile p := by
  induction l₁ with
  | nil => simp
  | cons a l ih =>
    simp only [List.cons_append, List.takeWhile_cons, h a (List.mem_cons_self a l)]
    simp [ih (fun x hx => h x (List.mem_cons_of_mem a hx))]

/-- The before-window of part_000's worker is chronologically ascending. -/
theorem p0BeforeWindow_pairwise (db : DB) (chatJID : String) (ts b : Nat) :
    (p0BeforeWindow db chatJID ts b).Pairwise (fun x y => x.timestamp ≤ y.timestamp) := by
  unfold p0BeforeWindow
  rw [List.pairwise_reverse]
  exact List.Pairwise.sublist (List.take_sublist b _) (sortTsDesc_pairwise _)

/-- Every row of the before-window is a strict chronological predecessor of
the anchor inside the anchor's chat. -/
theorem mem_p0BeforeWindow {db : DB} {chatJID : String} {ts b : Nat} {m : MessageRow}
    (h : m ∈ p0BeforeWindow db chatJID ts b) :
    m ∈ db.messages ∧ m.chat_jid = chatJID ∧ m.timestamp < ts := by
  unfold p0BeforeWindow at h
  rw [List.mem_reverse] at h
  have h2 : m ∈ sortTsDesc (p0Preds db chatJID ts) := (List.take_sublist b _).subset h
  unfold sortTsDesc at h2
  rw [mem_sortOrd] at h2
  unfold p0Preds at h2
  rcases List.mem_filter.mp h2 with ⟨hm, hp⟩
  simp only [Bool.and_eq_true, beq_iff_eq, decide_eq_true_eq] at hp
  exact ⟨hm, hp.1, hp.2⟩

/-- When the before-window is shorter than the bound, it already holds every
strict predecessor in the chat. -/
theorem p0BeforeWindow_complete {db : DB} {chatJID : String} {ts b : Nat}
    (hlen : (p0BeforeWindow db chatJID ts b).length < b) :
    ∀ m ∈ db.messages, m.chat_jid = chatJID → m.timestamp < ts →
      m ∈ p0BeforeWindow db chatJID ts b := by
  intro m hm hc ht
  unfold p0BeforeWindow at hlen ⊢
  rw [List.length_reverse, List.length_take] at hlen
  have hslen : (sortTsDesc (p0Preds db chatJID ts)).length ≤ b := by omega
  rw [List.take_of_length_le hslen, List.mem_reverse]
  unfold sortTsDesc
  rw [mem_sortOrd]
  unfold p0Preds
  exact List.mem_filter.mpr ⟨hm, by simp [hc, ht]⟩

/-- The before-window keeps the chronologically nearest predecessors: any
predecessor left out is no later than any member. -/
theorem p0BeforeWindow_nearest {db : DB} {chatJID : String} {ts b : Nat} {x y : MessageRow}
    (hx : x ∈ p0BeforeWindow db chatJID ts b) (hy : y ∈ db.messages)
    (hyc : y.chat_jid = chatJID) (hyt : y.timestamp < ts)
    (hny : y ∉ p0BeforeWindow db chatJID ts b) :
    y.timestamp ≤ x.timestamp := by
  unfold p0BeforeWindow at hx hny
  rw [List.mem_reverse] at hx
  rw [List.mem_reverse] at hny
  have hys : y ∈ sortTsDesc (p0Preds db chatJID ts) := by
    unfold sortTsDesc
    rw [mem_sortOrd]
    unfold p0Preds
    exact List.mem_filter.mpr ⟨hy, by simp [hyc, hyt]⟩
  have hpw : ((sortTsDesc (p0Preds db chatJID ts)).take b ++
      (sortTsDesc (p0Preds db chatJID ts)).drop b).Pairwise
        (fun u v => v.timestamp ≤ u.timestamp) := by
    rw [List.take_append_drop]
    exact sortTsDesc_pairwise _
  have hys' : y ∈ (sortTsDesc (p0Preds db chatJID ts)).take b ++
      (sortTsDesc (p0Preds db chatJID ts)).drop b := by
    rw [List.take_append_drop]
    exact hys
  rcases List.mem_append.mp hys' with h | h
  · exact absurd h hny
  · exact (List.pairwise_append.mp hpw).2.2 x hx y h

/-- The whatsapp_db.go before list stays in descending order: it is the raw
descending fetch, with no reversal step. -/
theorem wBeforeList_pairwise (db : DB) (chatJID : String) (ts b : Nat) :
    (wBeforeList db chatJID ts b).Pairwise (fun x y => y.Timestamp ≤ x.Timestamp) := by
  unfold wBeforeList
  rw [List.pairwise_map]
  exact List.Pairwise.sublist (List.take_sublist b _) (sortTsDesc_pairwise _)

/-- Scalar fields of a built listing row agree with its source row. -/
theorem p0BuildMessageResult_fields {db : DB} {p : ListMessagesParams} {bf af : Bool}
    {m : MessageRow} {r : MessageResult}
    (h : p0BuildMessageResult db p bf af m = .ok r) :
    r.ID = m.id ∧ r.ChatJID = m.chat_jid ∧ r.Sender = m.sender ∧
      r.Content = m.content ∧ r.Timestamp = m.timestamp := by
  unfold p0BuildMessageResult at h
  cases hic : p.IncludeContext with
  | false =>
    rw [hic] at h
    simp only [Bool.false_eq_true, if_false] at h
    cases h
    exact ⟨rfl, rfl, rfl, rfl, rfl⟩
  | true =>
    rw [hic] at h
    simp only [if_true] at h
    cases hctx : p0GetMessageContextInner db m.id m.chat_jid p.ContextBefore p.ContextAfter
        bf af with
    | error e => rw [hctx] at h; cases h
    | ok items => rw [hctx] at h; cases h; exact ⟨rfl, rfl, rfl, rfl, rfl⟩

/-- A failed anchor query in whatsapp_db.go `GetMessageContext` yields the
single not-found error. -/
theorem whatsappGetMessageContext_anchorFail (db : DB) (messageID : String) (b a : Nat)
    (bf af : Bool) :
    whatsappGetMessageContext db messageID b a true bf af = .error (.notFound messageID) := rfl

/-- When every per-message context fetch fails, the context loop emits
nothing at all. -/
theorem expandWithContext_all_fail (db : DB) (cb ca : Nat) (g : String → Bool)
    (bf af : Bool) (hg : ∀ s, g s = true) :
    ∀ l : List WMessage, expandWithContext db cb ca g bf af l = [] := by
  intro l
  induction l with
  | nil => rfl
  | cons m ms ih =>
    simp only [expandWithContext]
    rw [hg m.ID, whatsappGetMessageContext_anchorFail]
    simpa using ih

/-- C9 (amended): the round-trip IdentifierToPhone(PhoneToIdentifier(p)) = p
holds for every phone string p that contains no at-sign character.  (As
stated over phones merely lacking the whole domain marker the claim fails:
the extraction cuts at the first at-sign, see the counterexample.) -/
theorem C9_phone_roundtrip (p : String) (h : ∀ c ∈ p.toList, c ≠ '@') :
    IdentifierToPhone (PhoneToIdentifier p) = p := by
  have hcond : strContainsSub (PhoneToIdentifier p) "@s.whatsapp.net" = true := by
    unfold strContainsSub PhoneToIdentifier
    have htl : (p ++ "@s.whatsapp.net").toList = p.toList ++ "@s.whatsapp.net".toList := rfl
    rw [htl]
    exact containsChars_append_self _ _
  unfold IdentifierToPhone
  rw [hcond, if_pos rfl]
  have htl : (PhoneToIdentifier p).toList = p.toList ++ "@s.whatsapp.net".toList := rfl
  rw [htl]
  have hall : ∀ a ∈ p.toList, (fun c => c != '@') a = true := by
    intro a ha
    simp only [bne_iff_ne, ne_eq]
    exact h a ha
  rw [takeWhile_append_of_all hall]
  have hm : ("@s.whatsapp.net".toList.takeWhile (fun c => c != '@')) = ([] : List Char) := rfl
  rw [hm, List.append_nil]
  rfl

/-- C9 witness: the round-trip at a concrete plain phone number. -/
theorem C9_roundtrip_witness :
    IdentifierToPhone (PhoneToIdentifier "15551234567") = "15551234567" :=
  C9_phone_roundtrip "15551234567" (by decide)

/-- C9 counterexample: the phone string "1@2" does not contain the domain
marker, yet the round-trip returns "1": PhoneToIdentifier appends the
marker and IdentifierToPhone cuts at the first at-sign. -/
theorem C9_roundtrip_counterexample :
    strContainsSub "1@2" "@s.whatsapp.net" = false
    ∧ IdentifierToPhone (PhoneToIdentifier "1@2") = "1"
    ∧ ("1" : String) ≠ "1@2" := by
  exact ⟨by decide, by decide, by decide⟩

/-- C10: in whatsapp_db.go ListMessages with context inclusion enabled, a
matched message whose context retrieval fails contributes nothing to the
listing (it is skipped by `continue`, not emitted without context): removing
it from the page leaves the expanded listing unchanged, and if every
per-message context fetch fails the whole listing is empty. -/
theorem C10_context_failure_drops_row (db : DB) (contextBefore contextAfter : Nat)
    (contextQueryFails : String → Bool) (bf af : Bool) (ms₁ ms₂ : List WMessage)
    (m : WMessage) (h : contextQueryFails m.ID = true) :
    expandWithContext db contextBefore contextAfter contextQueryFails bf af (ms₁ ++ m :: ms₂) =
      expandWithContext db contextBefore contextAfter contextQueryFails bf af (ms₁ ++ ms₂)
    ∧ ∀ (after before : Option Nat) (senderPhoneNumber chatJID query : String)
        (limit page cb ca : Nat) (g : String → Bool) (bg ag : Bool),
        (∀ s, g s = true) →
        whatsappListMessagesRows db after before senderPhoneNumber chatJID query limit page
          true cb ca g bg ag = [] := by
  constructor
  · induction ms₁ with
    | nil =>
      simp only [List.nil_append, expandWithContext]
      rw [h, whatsappGetMessageContext_anchorFail]
      simp
    | cons x xs ih =>
      simp only [List.cons_append, expandWithContext, List.append_eq]
      rw [ih]
  · intro after before senderPhoneNumber chatJID query limit page cb ca g bg ag hg
    simp only [whatsappListMessagesRows]
    cases hM : (((sortTsDesc (db.messages.filter (fun mm =>
        chatExists db mm.chat_jid &&
          wMsgMatches after before senderPhoneNumber chatJID query mm))).drop
            (page * limit)).take limit).map (toWMessage db) with
    | nil => simp
    | cons x xs =>
      simp only [List.isEmpty_cons, Bool.not_false, Bool.and_self, if_true]
      exact expandWithContext_all_fail db cb ca g bg ag hg _

/-- C10 witness: dropping the failing row "m2" from a concrete page leaves
the expanded listing unchanged. -/
theorem C10_witness :
    expandWithContext exdb 1 1 (fun s => s == "m2") false false
        ([⟨1, "555@s.whatsapp.net", "hello one", false, "c", "m1", "ChatC", ""⟩] ++
          ⟨2, "555@s.whatsapp.net", "two", false, "c", "m2", "ChatC", ""⟩ ::
          [⟨3, "me@s.whatsapp.net", "three", true, "c", "m3", "ChatC", ""⟩]) =
      expandWithContext exdb 1 1 (fun s => s == "m2") false false
        ([⟨1, "555@s.whatsapp.net", "hello one", false, "c", "m1", "ChatC", ""⟩] ++
          [⟨3, "me@s.whatsapp.net", "three", true, "c", "m3", "ChatC", ""⟩]) :=
  (C10_context_failure_drops_row exdb 1 1 (fun s => s == "m2") false false _ _ _
    (by decide)).1

/-- C3 (amended): in part_000's getMessageContext a store failure of the
before- or after-window query propagates to the caller as the corresponding
retrieval error.  (whatsapp_db.go's GetMessageContext instead swallows such
failures and returns the window with that side empty, see the
counterexample.) -/
theorem C3_store_failure_propagation (db : DB) (messageID chatJID : String)
    (before after : Nat) (af : Bool) (anchor : MessageRow)
    (hfind : db.messages.find? (fun m => m.id == messageID && m.chat_jid == chatJID) =
      some anchor) :
    p0GetMessageContextInner db messageID chatJID before after true af =
      .error .beforeFetchFailed
    ∧ p0GetMessageContextInner db messageID chatJID before after false true =
      .error .afterFetchFailed := by
  unfold p0GetMessageContextInner
  rw [hfind]
  exact ⟨rfl, rfl⟩

/-- C3 witness: the propagation at a concrete anchor. -/
theorem C3_witness :
    p0GetMessageContextInner exdb "m3" "c" 2 2 true false = .error .beforeFetchFailed
    ∧ p0GetMessageContextInner exdb "m3" "c" 2 2 false true = .error .afterFetchFailed :=
  C3_store_failure_propagation exdb "m3" "c" 2 2 false
    ⟨"m3", "c", "me@s.whatsapp.net", "three", 3, true, "", ""⟩ (by decide)

/-- C3 counterexample: whatsapp_db.go's GetMessageContext does not propagate
a failing before- or after-query; it succeeds with that sequence silently
empty. -/
theorem C3_counterexample :
    (whatsappGetMessageContext exdb "m3" 2 2 false true false).map (fun c => c.Before) =
      .ok []
    ∧ (whatsappGetMessageContext exdb "m3" 2 2 false false true).map (fun c => c.After) =
      .ok [] := by
  exact ⟨by decide, by decide⟩

/-- C4: a message identifier absent from the store makes both
GetMessageContext implementations fail with their not-found error; nothing
but the error is returned, so no partial window escapes. -/
theorem C4_missing_anchor_terminal (db : DB) (messageID : String) (b a : Nat) (bf af : Bool)
    (h : ∀ m ∈ db.messages, m.id ≠ messageID) :
    whatsappGetMessageContext db messageID b a false bf af = .error (.notFound messageID)
    ∧ p0GetMessageContext db ⟨messageID, b, a⟩ bf af = .error .targetFetchFailed := by
  have hfind : db.messages.find? (fun m => m.id == messageID && chatExists db m.chat_jid) =
      none := by
    rw [List.find?_eq_none]
    intro m hm
    simp only [Bool.and_eq_true, beq_iff_eq, not_and]
    intro hc
    exact absurd hc (h m hm)
  constructor
  · simp [whatsappGetMessageContext, hfind]
  · simp [p0GetMessageContext, hfind]

/-- C4 witness: a concrete unknown identifier. -/
theorem C4_witness :
    whatsappGetMessageContext exdb "zz" 2 2 false false false = .error (.notFound "zz")
    ∧ p0GetMessageContext exdb ⟨"zz", 2, 2⟩ false false = .error .targetFetchFailed :=
  C4_missing_anchor_terminal exdb "zz" 2 2 false false (by decide)

/-- C2 at the failing input: part_000's getMessageContext scans the
exhausted before-cursor inside its after-row loop, so the moment the
after-query returns a row the whole call fails with the scan error instead
of returning the bounded window; whatsapp_db.go's version at the same input
returns the window the claim describes (lengths within bounds, both sides
strict). -/
theorem C2_after_scan_slip :
    p0GetMessageContext exdb ⟨"m3", 2, 2⟩ false false = .error (.contextWrap .scanFailed)
    ∧ whatsappGetMessageContext exdb "m3" 2 2 false false false =
      .ok { Message := ⟨3, "me@s.whatsapp.net", "three", true, "c", "m3", "ChatC", ""⟩,
            Before := [⟨2, "555@s.whatsapp.net", "two", false, "c", "m2", "ChatC", ""⟩,
                       ⟨1, "555@s.whatsapp.net", "hello one", false, "c", "m1", "ChatC", ""⟩],
            After := [⟨4, "555@s.whatsapp.net", "four", false, "c", "m4", "ChatC", ""⟩,
                      ⟨5, "me@s.whatsapp.net", "five", true, "c", "m5", "ChatC", ""⟩] } := by
  exact ⟨by decide, by decide⟩

/-- C1 (amended): in part_000's getMessageContext the before-part of a
successfully returned window is exactly the image of the before-window:
the chronologically nearest at-most-`before` strict predecessors of the
anchor in its chat, fetched descending and reversed into ascending order
(ascending sortedness, predecessor membership, bound, completeness below
the bound, and nearness are the stated conjuncts); whatsapp_db.go's
GetMessageContext instead keeps its before list in descending order (last
conjunct), as its source has no reversal step — see the counterexample. -/
theorem C1_before_window_ascending (db : DB) (messageID chatJID : String)
    (before after : Nat) (bf af : Bool) (anchor : MessageRow) (out : List P0Message)
    (hfind : db.messages.find? (fun m => m.id == messageID && m.chat_jid == chatJID) =
      some anchor)
    (hok : p0GetMessageContextInner db messageID chatJID before after bf af = .ok out) :
    out = (p0BeforeWindow db chatJID anchor.timestamp before).map toP0Message
    ∧ out.Pairwise (fun x y => x.Time ≤ y.Time)
    ∧ out.length ≤ before
    ∧ (∀ m ∈ p0BeforeWindow db chatJID anchor.timestamp before,
        m ∈ db.messages ∧ m.chat_jid = chatJID ∧ m.timestamp < anchor.timestamp)
    ∧ ((p0BeforeWindow db chatJID anchor.timestamp before).length < before →
        ∀ m ∈ db.messages, m.chat_jid = chatJID → m.timestamp < anchor.timestamp →
          m ∈ p0BeforeWindow db chatJID anchor.timestamp before)
    ∧ (∀ x ∈ p0BeforeWindow db chatJID anchor.timestamp before, ∀ y ∈ db.messages,
        y.chat_jid = chatJID → y.timestamp < anchor.timestamp →
        y ∉ p0BeforeWindow db chatJID anchor.timestamp before → y.timestamp ≤ x.timestamp)
    ∧ (∀ (cid : String) (ts bb : Nat),
        (wBeforeList db cid ts bb).Pairwise (fun x y => y.Timestamp ≤ x.Timestamp)) := by
  have hout : out = (p0BeforeWindow db chatJID anchor.timestamp before).map toP0Message := by
    unfold p0GetMessageContextInner at hok
    rw [hfind] at hok
    cases bf with
    | true => simp at hok
    | false =>
      cases af with
      | true => simp at hok
      | false =>
        simp only [Bool.false_eq_true, if_false] at hok
        cases hemp : (p0AfterRows db chatJID anchor.timestamp after).isEmpty with
        | true => rw [hemp] at hok; simp at hok; exact hok.symm
        | false => rw [hemp] at hok; simp at hok
  refine ⟨hout, ?_, ?_, ?_, ?_, ?_, ?_⟩
  · rw [hout, List.pairwise_map]
    exact p0BeforeWindow_pairwise db chatJID anchor.timestamp before
  · rw [hout, List.length_map]
    unfold p0BeforeWindow
    rw [List.length_reverse, List.length_take]
    omega
  · intro m hm
    exact mem_p0BeforeWindow hm
  · exact p0BeforeWindow_complete
  · intro x hx y hy hc ht hn
    exact p0BeforeWindow_nearest hx hy hc ht hn
  · intro cid ts bb
    exact wBeforeList_pairwise db cid ts bb

/-- C1 witness: the worker's window at the concrete anchor "m3" with bound
two is the ascending pair of predecessors. -/
theorem C1_witness :
    p0GetMessageContextInner exdb "m3" "c" 2 0 false false =
      .ok [⟨"555@s.whatsapp.net", "hello one", 1, false, "", ""⟩,
           ⟨"555@s.whatsapp.net", "two", 2, false, "", ""⟩]
    ∧ ([⟨"555@s.whatsapp.net", "hello one", 1, false, "", ""⟩,
        (⟨"555@s.whatsapp.net", "two", 2, false, "", ""⟩ : P0Message)] :
        List P0Message).Pairwise (fun x y => x.Time ≤ y.Time) := by
  have h := C1_before_window_ascending exdb "m3" "c" 2 0 false false
    ⟨"m3", "c", "me@s.whatsapp.net", "three", 3, true, "", ""⟩
    [⟨"555@s.whatsapp.net", "hello one", 1, false, "", ""⟩,
     ⟨"555@s.whatsapp.net", "two", 2, false, "", ""⟩] (by decide) (by decide)
  exact ⟨by decide, h.2.1⟩

/-- C1 counterexample: at anchor "m3" with bound two, whatsapp_db.go's
GetMessageContext returns the before timestamps as [2, 1], which is not
ascending chronological order. -/
theorem C1_counterexample :
    (whatsappGetMessageContext exdb "m3" 2 0 false false false).map
        (fun c => c.Before.map (fun m => m.Timestamp)) = .ok [2, 1]
    ∧ ¬ ([2, 1] : List Nat).Pairwise (fun x y => x ≤ y) := by
  refine ⟨by decide, fun hc => ?_⟩
  rcases List.pairwise_cons.mp hc with ⟨h21, _⟩
  exact absurd (h21 1 (by simp)) (by decide)

/-- C5: last-message enrichment is best effort in both implementations.
In part_000, GetChat still returns the primary chat with the field unset
when the secondary lookup fails; ListChats returns the same chat rows under
any pattern of per-row enrichment failures, a failing row merely loses its
last-message field; in whatsapp_db.go's ListChats a chat whose left join
finds no matching message row is still listed, with the message columns at
their zero values. -/
theorem C5_enrichment_best_effort (db : DB) :
    (∀ (chatJID : String) (c : ChatRow),
      db.chats.find? (fun x => x.jid == chatJID) = some c →
      p0GetChat db chatJID true true =
        .ok { JID := c.jid, Name := c.name, LastMessageAt := c.last_message_time,
              LastMessage := none })
    ∧ (∀ (p : ListChatsParams) (f g : String → Bool),
        (p0ListChats db p f).map (fun r => r.JID) = (p0ListChats db p g).map (fun r => r.JID))
    ∧ (∀ (p : ListChatsParams) (f : String → Bool) (r : ChatResult),
        r ∈ p0ListChats db p f → f r.JID = true → r.LastMessage = none)
    ∧ (∀ (query sortBy : String) (limit page : Nat) (rs : List WChat) (r : WChat),
        whatsappListChats db query limit page true sortBy = .ok rs → r ∈ rs →
        (db.messages.filter (fun m =>
          m.chat_jid == r.JID && m.timestamp == r.LastMessageTime)).isEmpty = true →
        r.LastMessage = "" ∧ r.LastSender = "" ∧ r.LastIsFromMe = false) := by
  refine ⟨?_, ?_, ?_, ?_⟩
  · intro chatJID c hfind
    unfold p0GetChat
    rw [hfind]
    rfl
  · intro p f g
    unfold p0ListChats
    rw [List.map_map, List.map_map]
    rfl
  · intro p f r hr hf
    unfold p0ListChats at hr
    rcases List.mem_map.mp hr with ⟨c, hc, hbuild⟩
    subst hbuild
    have hf' : f c.jid = true := hf
    cases hil : p.IncludeLastMessage with
    | false => simp [hil]
    | true => simp [hil, hf']
  · intro query sortBy limit page rs r hok hr hempty
    unfold whatsappListChats at hok
    simp only [if_true] at hok
    have hok' := (Except.ok.injEq _ _).mp hok
    subst hok'
    rcases List.mem_map.mp hr with ⟨pr, hpr, hbuild⟩
    have hpr1 := (List.take_sublist _ _).subset hpr
    have hpr2 := (List.drop_sublist _ _).subset hpr1
    rw [mem_sortOrd] at hpr2
    rcases List.mem_flatMap.mp hpr2 with ⟨c, hcmem, hcm⟩
    rcases List.mem_map.mp hcm with ⟨om, hom, hpe⟩
    subst hpe
    subst hbuild
    cases om with
    | none => exact ⟨rfl, rfl, rfl⟩
    | some m =>
      exfalso
      have hempty' : (db.messages.filter (fun mm =>
          mm.chat_jid == c.jid && mm.timestamp == c.last_message_time)).isEmpty = true :=
        hempty
      rw [List.isEmpty_iff] at hempty'
      unfold leftJoinLast at hom
      rw [hempty'] at hom
      simp at hom

/-- C5 witness: concrete enrichment failures on the example store. -/
theorem C5_witness :
    p0GetChat exdb "c" true true = .ok ⟨"c", "ChatC", 5, none⟩
    ∧ (p0ListChats exdb ⟨"", 10, 0, true, ""⟩ (fun _ => true)).map (fun r => r.JID) =
        (p0ListChats exdb ⟨"", 10, 0, true, ""⟩ (fun _ => false)).map (fun r => r.JID) := by
  have h := C5_enrichment_best_effort exdb
  exact ⟨h.1 "c" ⟨"c", "ChatC", 5⟩ (by decide),
    h.2.1 ⟨"", 10, 0, true, ""⟩ (fun _ => true) (fun _ => false)⟩

/-- C6 (amended): part_000's SearchContacts fails with the validation error
exactly when the trimmed query is empty and otherwise returns precisely the
chats whose identifier or name contains the trimmed query
(case-insensitively), without excluding group identifiers; whatsapp_db.go's
SearchContacts performs no emptiness validation (see the counterexample)
but every contact it returns is a non-group identifier matching the query
case-insensitively. -/
theorem C6_search_contacts (db : DB) :
    (∀ q : String, trimSpace q = "" → p0SearchContacts db ⟨q⟩ = .error .emptyQuery)
    ∧ (∀ (q : String) (cs : List SearchContactsResult) (c : SearchContactsResult),
        p0SearchContacts db ⟨q⟩ = .ok cs → c ∈ cs →
          (likeContains c.JID (trimSpace q) || likeContains c.Name (trimSpace q)) = true)
    ∧ (∀ (q : String) (cs : List SearchContactsResult) (ch : ChatRow),
        p0SearchContacts db ⟨q⟩ = .ok cs → ch ∈ db.chats →
        (likeContains ch.jid (trimSpace q) || likeContains ch.name (trimSpace q)) = true →
          (⟨ch.jid, ch.name, IdentifierToPhone ch.jid⟩ : SearchContactsResult) ∈ cs)
    ∧ (∀ (q : String) (cs : List Contact) (c : Contact),
        whatsappSearchContacts db q = .ok cs → c ∈ cs →
          likeEndsWith c.JID "@g.us" = false ∧
          (likeContains c.Name q || likeContains c.JID q) = true) := by
  refine ⟨?_, ?_, ?_, ?_⟩
  · intro q hq
    simp [p0SearchContacts, hq]
  · intro q cs c hok hc
    simp only [p0SearchContacts] at hok
    split at hok
    · cases hok
    · have hok' := (Except.ok.injEq _ _).mp hok
      subst hok'
      rcases List.mem_map.mp hc with ⟨pr, hpr, hbuild⟩
      rw [mem_sortOrd, List.mem_dedup] at hpr
      rcases List.mem_map.mp hpr with ⟨ch, hch, hpe⟩
      subst hpe
      subst hbuild
      exact (List.mem_filter.mp hch).2
  · intro q cs ch hok hch hmatch
    simp only [p0SearchContacts] at hok
    split at hok
    · cases hok
    · have hok' := (Except.ok.injEq _ _).mp hok
      subst hok'
      refine List.mem_map.mpr ⟨(ch.jid, ch.name), ?_, rfl⟩
      rw [mem_sortOrd, List.mem_dedup]
      exact List.mem_map.mpr ⟨ch, List.mem_filter.mpr ⟨hch, hmatch⟩, rfl⟩
  · intro q cs c hok hc
    simp only [whatsappSearchContacts] at hok
    have hok' := (Except.ok.injEq _ _).mp hok
    subst hok'
    rcases List.mem_map.mp hc with ⟨pr, hpr, hbuild⟩
    have hpr1 := (List.take_sublist _ _).subset hpr
    rw [mem_sortOrd, List.mem_dedup] at hpr1
    rcases List.mem_map.mp hpr1 with ⟨ch, hch, hpe⟩
    subst hpe
    subst hbuild
    have hpred := (List.mem_filter.mp hch).2
    rw [Bool.and_eq_true] at hpred
    rcases hpred with ⟨hmatch, hgroup⟩
    rw [Bool.not_eq_eq_eq_not, Bool.not_true] at hgroup
    exact ⟨hgroup, hmatch⟩

/-- C6 witness: the validation at a whitespace query and the group
exclusion at a concrete returned contact. -/
theorem C6_witness :
    p0SearchContacts exdb ⟨"   "⟩ = .error .emptyQuery
    ∧ likeEndsWith "555@s.whatsapp.net" "@g.us" = false := by
  have h := C6_search_contacts exdb
  refine ⟨h.1 "   " (by decide), ?_⟩
  have h4 := h.2.2.2 "" [⟨"555", "Alice", "555@s.whatsapp.net"⟩, ⟨"c", "ChatC", "c"⟩]
    ⟨"555", "Alice", "555@s.whatsapp.net"⟩ (by decide) (by decide)
  exact h4.1

/-- C6 counterexample: part_000's SearchContacts returns the group
identifier "123@g.us" for the query "123" (no group exclusion), and
whatsapp_db.go's SearchContacts succeeds on the empty query instead of
failing with a validation error. -/
theorem C6_counterexample :
    p0SearchContacts exdb ⟨"123"⟩ = .ok [⟨"123@g.us", "Group", ""⟩]
    ∧ likeEndsWith "123@g.us" "@g.us" = true
    ∧ whatsappSearchContacts exdb "" =
        .ok [⟨"555", "Alice", "555@s.whatsapp.net"⟩, ⟨"c", "ChatC", "c"⟩] := by
  exact ⟨by decide, by decide, by decide⟩

/-- C7: every row returned by part_000's ListMessages satisfies each filter
that was supplied (time bounds strict, sender normalized to an identifier,
chat equality, case-insensitive content containment), and a parameter set
with no filters constrains no row at all. -/
theorem C7_filter_conjunction (db : DB) (p : ListMessagesParams) (bf af : Bool)
    (rs : List MessageResult) (r : MessageResult)
    (hok : p0ListMessages db p bf af = .ok rs) (hr : r ∈ rs) :
    (∀ t, p.After = some t → t < r.Timestamp)
    ∧ (∀ t, p.Before = some t → r.Timestamp < t)
    ∧ (p.SenderPhoneNumber ≠ "" → r.Sender = PhoneToIdentifier p.SenderPhoneNumber)
    ∧ (p.ChatJID ≠ "" → r.ChatJID = p.ChatJID)
    ∧ (p.Query ≠ "" → likeContains r.Content p.Query = true)
    ∧ (∀ (p' : ListMessagesParams) (m : MessageRow), p'.After = none → p'.Before = none →
        p'.SenderPhoneNumber = "" → p'.ChatJID = "" → p'.Query = "" →
        msgMatches p' m = true) := by
  rcases mapME_ok_mem hok r hr with ⟨m, hm, hbuild⟩
  rcases p0BuildMessageResult_fields hbuild with ⟨hid, hcj, hsd, hct, hts⟩
  have hmem : m ∈ db.messages.filter
      (fun mm => chatExists db mm.chat_jid && msgMatches p mm) := by
    have h1 : m ∈ p0PageMessages db p := hm
    unfold p0PageMessages at h1
    have h2 := (List.take_sublist _ _).subset h1
    have h3 := (List.drop_sublist _ _).subset h2
    unfold p0SortedMessages sortTsDesc at h3
    rwa [mem_sortOrd] at h3
  have hmatch : msgMatches p m = true := by
    have := (List.mem_filter.mp hmem).2
    rw [Bool.and_eq_true] at this
    exact this.2
  unfold msgMatches at hmatch
  simp only [Bool.and_eq_true] at hmatch
  obtain ⟨⟨⟨⟨ha, hb⟩, hs⟩, hc⟩, hq⟩ := hmatch
  refine ⟨?_, ?_, ?_, ?_, ?_, ?_⟩
  · intro t ht
    rw [ht] at ha
    rw [hts]
    simpa using ha
  · intro t ht
    rw [ht] at hb
    rw [hts]
    simpa using hb
  · intro hne
    have hfalse : (p.SenderPhoneNumber == "") = false := beq_eq_false_iff_ne.mpr hne
    rw [hfalse] at hs
    simp only [Bool.false_eq_true, if_false, beq_iff_eq] at hs
    rw [hsd, hs]
  · intro hne
    have hfalse : (p.ChatJID == "") = false := beq_eq_false_iff_ne.mpr hne
    rw [hfalse] at hc
    simp only [Bool.false_eq_true, if_false, beq_iff_eq] at hc
    rw [hcj, hc]
  · intro hne
    have hfalse : (p.Query == "") = false := beq_eq_false_iff_ne.mpr hne
    rw [hfalse] at hq
    simp only [Bool.false_eq_true, if_false] at hq
    rw [hct]
    exact hq
  · intro p' m' h1 h2 h3 h4 h5
    unfold msgMatches
    rw [h1, h2, h3, h4, h5]
    rfl

/-- C7 witness: a concrete listing filtered by sender and content satisfies
both predicates on its first row. -/
theorem C7_witness :
    (⟨"m4", "c", "555@s.whatsapp.net", "ChatC", "four", 4, false, "", "", []⟩ :
      MessageResult).Sender = PhoneToIdentifier "555"
    ∧ likeContains "four" "o" = true := by
  have h := C7_filter_conjunction exdb ⟨none, none, "555", "", "o", 10, 0, false, 0, 0⟩
    false false
    [⟨"m4", "c", "555@s.whatsapp.net", "ChatC", "four", 4, false, "", "", []⟩,
     ⟨"m2", "c", "555@s.whatsapp.net", "ChatC", "two", 2, false, "", "", []⟩,
     ⟨"m1", "c", "555@s.whatsapp.net", "ChatC", "hello one", 1, false, "", "", []⟩]
    ⟨"m4", "c", "555@s.whatsapp.net", "ChatC", "four", 4, false, "", "", []⟩
    (by decide) (by decide)
  refine ⟨h.2.2.1 (by decide), ?_⟩
  have h5 := h.2.2.2.2.1 (by decide)
  exact h5

/-- The chat listing order is total for either sort option. -/
theorem chatLe_total (sortBy : String) :
    ∀ x y, chatLe sortBy x y = true ∨ chatLe sortBy y x = true := by
  intro x y
  unfold chatLe
  cases h : (sortBy == "name") with
  | true =>
    simp only [if_true, decide_eq_true_eq]
    exact le_total x.name.toList y.name.toList
  | false =>
    simp only [Bool.false_eq_true, if_false, decide_eq_true_eq]
    exact le_total y.last_message_time x.last_message_time

/-- The chat listing order is transitive for either sort option. -/
theorem chatLe_trans (sortBy : String) :
    ∀ x y z, chatLe sortBy x y = true → chatLe sortBy y z = true →
      chatLe sortBy x z = true := by
  intro x y z hxy hyz
  unfold chatLe at *
  cases h : (sortBy == "name") with
  | true =>
    rw [h] at hxy hyz
    simp only [if_true, decide_eq_true_eq] at *
    exact le_trans hxy hyz
  | false =>
    rw [h] at hxy hyz
    simp only [Bool.false_eq_true, if_false, decide_eq_true_eq] at *
    exact le_trans hyz hxy

/-- C8: listings skip exactly page*limit rows and return at most limit
rows — the returned identifiers are precisely those of the sorted full
result between the offset and offset+limit; message listings come out
timestamp-descending, chat listings last-message-time-descending by
default, and the "name" sort option makes them name-ascending. -/
theorem C8_pagination_and_ordering (db : DB) :
    (∀ (p : ListMessagesParams) (bf af : Bool) (rs : List MessageResult),
      p0ListMessages db p bf af = .ok rs →
        rs.length ≤ p.Limit
        ∧ rs.map (fun r => r.ID) =
            (((p0SortedMessages db p).drop (p.Page * p.Limit)).take p.Limit).map
              (fun m => m.id)
        ∧ rs.Pairwise (fun x y => y.Timestamp ≤ x.Timestamp))
    ∧ (∀ (p : ListChatsParams) (f : String → Bool),
        (p0ListChats db p f).length ≤ p.Limit
        ∧ (p0ListChats db p f).map (fun r => r.JID) =
            (((p0SortedChats db p.Query p.SortBy).drop (p.Page * p.Limit)).take p.Limit).map
              (fun c => c.jid)
        ∧ (p.SortBy = "name" →
            (p0ListChats db p f).Pairwise (fun x y => x.Name.toList ≤ y.Name.toList))
        ∧ (p.SortBy ≠ "name" →
            (p0ListChats db p f).Pairwise (fun x y => y.LastMessageAt ≤ x.LastMessageAt))) := by
  constructor
  · intro p bf af rs hok
    have hlen := mapME_ok_length hok
    have hmap := mapME_ok_map (fun r => r.ID) (fun m => m.id)
      (fun m r h => (p0BuildMessageResult_fields h).1) hok
    have hmapts := mapME_ok_map (fun r => r.Timestamp) (fun m => m.timestamp)
      (fun m r h => (p0BuildMessageResult_fields h).2.2.2.2) hok
    refine ⟨?_, ?_, ?_⟩
    · rw [hlen]
      unfold p0PageMessages
      rw [List.length_take]
      omega
    · exact hmap
    · have hp : (p0PageMessages db p).Pairwise (fun x y => y.timestamp ≤ x.timestamp) := by
        unfold p0PageMessages p0SortedMessages
        exact List.Pairwise.sublist
          ((List.take_sublist _ _).trans (List.drop_sublist _ _)) (sortTsDesc_pairwise _)
      have h1 : List.Pairwise (fun a b : Nat => b ≤ a) (rs.map (fun r => r.Timestamp)) := by
        rw [hmapts, List.pairwise_map]
        exact hp
      rw [List.pairwise_map] at h1
      exact h1
  · intro p f
    have hpage : (((p0SortedChats db p.Query p.SortBy).drop (p.Page * p.Limit)).take
        p.Limit).Pairwise (fun a b => chatLe p.SortBy a b = true) := by
      unfold p0SortedChats
      exact List.Pairwise.sublist
        ((List.take_sublist _ _).trans (List.drop_sublist _ _))
        (pairwise_sortOrd (chatLe_total p.SortBy) (chatLe_trans p.SortBy) _)
    refine ⟨?_, ?_, ?_, ?_⟩
    · unfold p0ListChats
      rw [List.length_map, List.length_take]
      omega
    · unfold p0ListChats
      rw [List.map_map]
      rfl
    · intro hname
      unfold p0ListChats
      rw [List.pairwise_map]
      refine hpage.imp ?_
      intro a b hab
      unfold chatLe at hab
      rw [hname] at hab
      simpa using hab
    · intro hname
      unfold p0ListChats
      rw [List.pairwise_map]
      refine hpage.imp ?_
      intro a b hab
      unfold chatLe at hab
      have hfalse : (p.SortBy == "name") = false := beq_eq_false_iff_ne.mpr hname
      rw [hfalse] at hab
      simpa using hab

/-- C8 witness: a concrete second page of two rows and a concrete
name-ascending chat listing. -/
theorem C8_witness :
    ([⟨"m3", "c", "me@s.whatsapp.net", "ChatC", "three", 3, true, "", "", []⟩,
      ⟨"m2", "c", "555@s.whatsapp.net", "ChatC", "two", 2, false, "", "", []⟩] :
      List MessageResult).length ≤ 2
    ∧ (p0ListChats exdb ⟨"", 10, 0, false, "name"⟩ (fun _ => false)).Pairwise
        (fun x y => x.Name.toList ≤ y.Name.toList) := by
  have h := C8_pagination_and_ordering exdb
  refine ⟨(h.1 ⟨none, none, "", "", "", 2, 1, false, 0, 0⟩ false false
    [⟨"m3", "c", "me@s.whatsapp.net", "ChatC", "three", 3, true, "", "", []⟩,
     ⟨"m2", "c", "555@s.whatsapp.net", "ChatC", "two", 2, false, "", "", []⟩]
    (by decide)).1, ?_⟩
  exact (h.2 ⟨"", 10, 0, false, "name"⟩ (fun _ => false)).2.2.1 rfl
